import Mathlib

/-!
Verification of the gear-combination domain model of the Nu-Sui drivetrain
application (source files `nu-sui_EN.py` / `nu-sui_ES.py`, which share the
same logic and differ only in display strings; the English strings are used
here).

The Python code is embedded shallowly:

* teeth counts and indices are Python `int`s, embedded as `ℤ`
  (list lengths are `ℕ` and are cast where the code subtracts);
* ratios, speeds and slopes are Python floats used only through field
  arithmetic, embedded as `ℚ` (exact field arithmetic);
* `round` is Python's built-in round-half-to-even, applied to the exact
  rational value of its argument (`pyRoundMul` below);
* fallible code (`raise ValueError`) is embedded as `Except String`;
* the nested `for` loops of the recommendation search, which mutate
  `best_chainring` / `best_sprocket` / `min_diff`, are embedded as a fold
  (`bestGearLoop`) over the list of (chainring, sprocket) pairs in loop
  order, with the mutable state passed as an `Option (pair × ℚ)`
  accumulator (`none` plays the role of `best = None, min_diff = inf`).
-/

/-- Python's `round(n * (a/b))` (banker's rounding, half to even) evaluated
on the exact rational value `n * a / b`, for `b > 0`.  The source writes
`round(num_sprockets * 0.35)` etc.; the decimal constant is passed here as
the fraction `a / b`. -/
def pyRoundMul (n a b : ℤ) : ℤ :=
  let num := n * a
  let f := num.fdiv b
  let r := num - f * b
  if 2 * r < b then f
  else if b < 2 * r then f + 1
  else if f % 2 = 0 then f else f + 1

/-- `MIN_TEETH` constant (line 21 of the source). -/
def MIN_TEETH : ℤ := 11

/-- `MAX_TEETH` constant (line 22 of the source). -/
def MAX_TEETH : ℤ := 53

/-- The drivetrain data the calculations read from the session object:
`self.crankset_teeth`, `self.cassette_teeth`, and the wheel circumference
`self.wheel_sizes[self.wheel_size_var.get()]` (in meters). -/
structure DrivetrainConfig where
  crankset : List ℤ
  cassette : List ℤ
  wheel_circumference : ℚ

/-- `validate_gear_configuration`: both teeth lists non-empty and every
tooth count within `[MIN_TEETH, MAX_TEETH]` (the `isinstance(teeth, int)`
check is inherent in the `ℤ` typing of the embedding). -/
def validate_gear_configuration (cfg : DrivetrainConfig) : Bool :=
  !cfg.crankset.isEmpty && !cfg.cassette.isEmpty &&
    (cfg.crankset ++ cfg.cassette).all (fun teeth => MIN_TEETH ≤ teeth && teeth ≤ MAX_TEETH)

/-- The value `chainring / sprocket` computed by `calculate_gear_ratio` on
the non-error path. -/
def gear_ratio_val (chainring sprocket : ℤ) : ℚ :=
  (chainring : ℚ) / (sprocket : ℚ)

/-- `calculate_gear_ratio` (lines 607-620): raises
`ValueError("Sprocket cannot have 0 teeth")` when `sprocket == 0`,
otherwise returns `chainring / sprocket`. -/
def calculate_gear_ratio (chainring sprocket : ℤ) : Except String ℚ :=
  if sprocket = 0 then Except.error "Sprocket cannot have 0 teeth"
  else Except.ok (gear_ratio_val chainring sprocket)

/-- `calculate_speed` (lines 713-716):
`(gear_ratio * wheel_circum * cadence * 60) / 1000` km/h. -/
def calculate_speed (cfg : DrivetrainConfig) (gear_ratio : ℚ) (cadence : ℤ) : ℚ :=
  (gear_ratio * cfg.wheel_circumference * (cadence : ℚ) * 60) / 1000

/-- Crossing reason string for the large-chainring rule. -/
def large_large_msg : String :=
  "Large chainring with large sprocket: increases wear and reduces efficiency"

/-- Crossing reason string for the small-chainring rule. -/
def small_small_msg : String :=
  "Small chainring with small sprocket: increases wear and reduces efficiency"

/-- Crossing reason string for the middle chainring of a triple. -/
def middle_extreme_msg : String :=
  "Middle chainring with extreme sprocket: may cause wear"

/-- Crossing reason string for intermediate chainrings under the general rule. -/
def intermediate_extreme_msg : String :=
  "Intermediate chainring with extreme sprocket: may cause wear"

/-- `is_chain_crossing` (lines 622-710).  The debug-print blocks guarded by
`self.debug_var` have no effect on the returned value and are omitted. -/
def is_chain_crossing (crankset cassette : List ℤ) (chainring_idx sprocket_idx : ℤ) :
    Bool × Option String :=
  let num_chainrings : ℤ := crankset.length
  let num_sprockets : ℤ := cassette.length
  if num_chainrings ≤ 1 then (false, none)
  else if num_chainrings = 2 then
    -- For double chainring, consider 35% of sprockets as extremes
    let extreme_count : ℤ := max 2 (pyRoundMul num_sprockets 35 100)
    if chainring_idx = 0 ∧ sprocket_idx ≥ num_sprockets - extreme_count then
      (true, some large_large_msg)
    else if chainring_idx = num_chainrings - 1 ∧ sprocket_idx < extreme_count then
      (true, some small_small_msg)
    else (false, none)
  else if num_chainrings = 3 then
    -- More restrictive with triples: 40% of sprockets are extremes
    let extreme_count_large : ℤ := max 2 (pyRoundMul num_sprockets 4 10)
    let extreme_count_small : ℤ := max 2 (pyRoundMul num_sprockets 4 10)
    let medium_extreme_large : ℤ := max 1 (pyRoundMul num_sprockets 15 100)
    let medium_extreme_small : ℤ := max 1 (pyRoundMul num_sprockets 15 100)
    if chainring_idx = 0 ∧ sprocket_idx ≥ num_sprockets - extreme_count_large then
      (true, some large_large_msg)
    else if chainring_idx = num_chainrings - 1 ∧ sprocket_idx < extreme_count_small then
      (true, some small_small_msg)
    else if chainring_idx = 1 ∧
        (sprocket_idx ≥ num_sprockets - medium_extreme_large ∨
         sprocket_idx < medium_extreme_small) then
      (true, some middle_extreme_msg)
    else (false, none)
  else
    -- General rule: 30% of sprockets at each end
    let extreme_count : ℤ := max 1 (pyRoundMul num_sprockets 3 10)
    if chainring_idx = 0 ∧ sprocket_idx ≥ num_sprockets - extreme_count then
      (true, some large_large_msg)
    else if chainring_idx = num_chainrings - 1 ∧ sprocket_idx < extreme_count then
      (true, some small_small_msg)
    else if num_chainrings > 2 ∧ 0 < chainring_idx ∧ chainring_idx < num_chainrings - 1 ∧
        (sprocket_idx = 0 ∨ sprocket_idx ≥ num_sprockets - 1) then
      (true, some intermediate_extreme_msg)
    else (false, none)

/-- Advice string for steep climbs (`slope > 8`), lines 1302-1303. -/
def steep_climb_advice : String :=
  "For steep slopes, maintain a high cadence and use lighter gears to avoid straining your knees."

/-- Advice string for mild climbs (`slope > 0`), lines 1304-1305. -/
def mild_climb_advice : String :=
  "Maintain a constant cadence. If you feel you're exerting too much force, switch to a lighter gear."

/-- Advice string for descents (`slope < -5`), lines 1306-1307. -/
def descent_advice : String :=
  "On descents, you can use harder gears or simply stop pedaling if the speed is high."

/-- Advice string for flat terrain (the `else` branch), lines 1308-1309. -/
def flat_advice : String :=
  "On flat terrain, try to maintain a comfortable cadence (80-90 RPM) and adjust the gear according to the wind and your physical condition."

/-- The slope-to-advice selection of `calculate_recommended_gear`
(lines 1301-1309). -/
def recommendation_advice (slope : ℚ) : String :=
  if slope > 8 then steep_climb_advice
  else if slope > 0 then mild_climb_advice
  else if slope < -5 then descent_advice
  else flat_advice

/-- The query parameters of the recommendation tab: target speed (km/h),
slope (%), cadence (RPM). -/
structure RecommendationQuery where
  target_speed : ℚ
  slope : ℚ
  cadence : ℤ

/-- The data of a displayed recommendation (lines 1248-1312): the chosen
teeth pair, its loop indices, derived quantities, the crossing flag with
its reason, and the slope advice. -/
structure RecommendationResult where
  chainring : ℤ
  sprocket : ℤ
  chainring_idx : ℕ
  sprocket_idx : ℕ
  gear_ratio : ℚ
  speed : ℚ
  development : ℚ
  is_crossing : Bool
  crossing_reason : Option String
  advice : String

/-- One candidate of the nested recommendation loops: the `enumerate`
pair `(i, chainring)` of the outer loop and `(j, sprocket)` of the
inner loop. -/
abbrev GearPair := (ℕ × ℤ) × (ℕ × ℤ)

/-- The candidates of `for i, chainring in enumerate(self.crankset_teeth):
for j, sprocket in enumerate(self.cassette_teeth):` in loop order
(chainring-major, sprocket-minor). -/
def gearPairs (cfg : DrivetrainConfig) : List GearPair :=
  cfg.crankset.enum.flatMap (fun ic => cfg.cassette.enum.map (fun js => (ic, js)))

/-- The slope-adjusted speed of a candidate pair (lines 1210-1214):
`speed * (1 - slope/100 * 0.1)`. -/
def adjusted_speed (cfg : DrivetrainConfig) (q : RecommendationQuery)
    (chainring sprocket : ℤ) : ℚ :=
  let gear_ratio := gear_ratio_val chainring sprocket
  let speed := calculate_speed cfg gear_ratio q.cadence
  speed * (1 - q.slope / 100 * (1 / 10))

/-- The quantity minimized by the recommendation search (line 1217):
`abs(adjusted_speed - target_speed)`. -/
def pairDiff (cfg : DrivetrainConfig) (q : RecommendationQuery)
    (chainring sprocket : ℤ) : ℚ :=
  |adjusted_speed cfg q chainring sprocket - q.target_speed|

/-- `pairDiff` read off a loop candidate. -/
def pairScore (cfg : DrivetrainConfig) (q : RecommendationQuery) (p : GearPair) : ℚ :=
  pairDiff cfg q p.1.2 p.2.2

/-- One iteration of the minimization (lines 1218-1221): replace the
running best exactly when the new difference is strictly smaller
(`diff < min_diff`; from the initial `None` / `min_diff = inf` state any
finite difference wins). -/
def updateBest (x : GearPair) (d : ℚ) (acc : Option (GearPair × ℚ)) :
    Option (GearPair × ℚ) :=
  match acc with
  | none => some (x, d)
  | some (b, m) => if d < m then some (x, d) else some (b, m)

/-- The nested loops of `calculate_recommended_gear` as a fold in loop
order: candidates failing `keep` are skipped (`continue`), the others go
through `updateBest`.  The accumulator carries
`(best_chainring, best_sprocket, min_diff)`. -/
def bestGearLoop (keep : GearPair → Bool) (score : GearPair → ℚ) :
    List GearPair → Option (GearPair × ℚ) → Option (GearPair × ℚ)
  | [], acc => acc
  | x :: xs, acc =>
      bestGearLoop keep score xs (if keep x then updateBest x (score x) acc else acc)

/-- First search pass (lines 1203-1221): pairs classified as crossing are
skipped. -/
def first_pass (cfg : DrivetrainConfig) (q : RecommendationQuery) :
    Option (GearPair × ℚ) :=
  bestGearLoop
    (fun p => !(is_chain_crossing cfg.crankset cfg.cassette (p.1.1 : ℤ) (p.2.1 : ℤ)).1)
    (pairScore cfg q) (gearPairs cfg) none

/-- Fallback search pass (lines 1224-1240): every pair is considered. -/
def second_pass (cfg : DrivetrainConfig) (q : RecommendationQuery) :
    Option (GearPair × ℚ) :=
  bestGearLoop (fun _ => true) (pairScore cfg q) (gearPairs cfg) none

/-- `calculate_recommended_gear` (lines 1186-1312), restricted to the
computed recommendation data (the surrounding widget construction is
presentation-only).  If the first pass found a pair the crossing flag is
`false`; otherwise the fallback pass runs and the flag is re-derived by
the classifier on the winning indices (lines 1242-1246).  The winning
loop indices are carried in the result; the source keeps the winning
teeth and recomputes display indices with `list.index`.  The final
`if best_chainring and best_sprocket:` truthiness test is always passed
by a validated configuration (teeth ≥ MIN_TEETH > 0). -/
def calculate_recommended_gear (cfg : DrivetrainConfig) (q : RecommendationQuery) :
    Option RecommendationResult :=
  match first_pass cfg q with
  | some ((ic, jc), _) =>
      let gear_ratio := gear_ratio_val ic.2 jc.2
      some { chainring := ic.2, sprocket := jc.2,
             chainring_idx := ic.1, sprocket_idx := jc.1,
             gear_ratio := gear_ratio,
             speed := calculate_speed cfg gear_ratio q.cadence,
             development := gear_ratio * cfg.wheel_circumference,
             is_crossing := false, crossing_reason := none,
             advice := recommendation_advice q.slope }
  | none =>
      match second_pass cfg q with
      | some ((ic, jc), _) =>
          let cr := is_chain_crossing cfg.crankset cfg.cassette (ic.1 : ℤ) (jc.1 : ℤ)
          let gear_ratio := gear_ratio_val ic.2 jc.2
          some { chainring := ic.2, sprocket := jc.2,
                 chainring_idx := ic.1, sprocket_idx := jc.1,
                 gear_ratio := gear_ratio,
                 speed := calculate_speed cfg gear_ratio q.cadence,
                 development := gear_ratio * cfg.wheel_circumference,
                 is_crossing := cr.1, crossing_reason := cr.2,
                 advice := recommendation_advice q.slope }
      | none => none

/-- The iteration order of the nested loops: strictly earlier means a
smaller chainring index, or the same chainring index and a smaller
sprocket index. -/
def lexBefore (p p' : GearPair) : Prop :=
  p.1.1 < p'.1.1 ∨ (p.1.1 = p'.1.1 ∧ p.2.1 < p'.2.1)

/-- The `BikeType` preset data (dataclass at lines 126-132). -/
structure BikeType where
  name : String
  value : String
  chainrings : List ℤ
  sprockets : List ℤ

/-- The preset list of the configuration tab (lines 379-384). -/
def bike_types : List BikeType :=
  [⟨"MTB (Mountain)", "mtb", [24, 34, 42], [14, 16, 18, 20, 22, 24, 34]⟩,
   ⟨"Road", "road", [34, 50], [14, 16, 18, 20, 22, 24, 28]⟩,
   ⟨"Urban/Commuter", "urban", [24, 34, 42], [14, 16, 18, 20, 22, 24, 28]⟩,
   ⟨"Custom", "custom", [], []⟩]

/-- `select_bike_type` (lines 533-574), restricted to the teeth lists it
stores: copies the preset lists, sorts sprockets ascending and chainrings
descending, and resets both to empty for the "custom" preset (manual
entry then takes over).  Python's `list.sort()` is embedded as
`insertionSort` with the corresponding total order. -/
def select_bike_type (bike_type : BikeType) : List ℤ × List ℤ :=
  let crankset := List.insertionSort (fun a b => a ≥ b) bike_type.chainrings
  let cassette := List.insertionSort (fun a b => a ≤ b) bike_type.sprockets
  if bike_type.value = "custom" then ([], []) else (crankset, cassette)

/-- `save_custom_gears` (lines 500-524), taking the already-parsed integer
lists of the two entry fields (the comma-splitting and `int()` parsing of
the text fields is presentation-side): rejects an empty list with the
`ValueError` of line 520, otherwise stores the sprockets ascending and
the chainrings descending. -/
def save_custom_gears (crankset_teeth cassette_teeth : List ℤ) :
    Except String (List ℤ × List ℤ) :=
  if crankset_teeth = [] ∨ cassette_teeth = [] then
    Except.error "You must configure at least one chainring and one sprocket"
  else
    Except.ok (List.insertionSort (fun a b => a ≥ b) crankset_teeth,
               List.insertionSort (fun a b => a ≤ b) cassette_teeth)

/-- The per-chainring ratio rows `all_ratios` handed to
`calculate_overlap_analysis` by `setup_overlap_chart` (lines 1571-1597). -/
def chainring_ratio_rows (cfg : DrivetrainConfig) : List (List ℚ) :=
  cfg.crankset.map (fun chainring =>
    cfg.cassette.map (fun sprocket => gear_ratio_val chainring sprocket))

/-- The per-chainring crossing rows `crosses` handed to
`calculate_overlap_analysis` by the same caller. -/
def crossing_rows (cfg : DrivetrainConfig) : List (List Bool) :=
  cfg.crankset.enum.map (fun ic =>
    cfg.cassette.enum.map (fun js =>
      (is_chain_crossing cfg.crankset cfg.cassette (ic.1 : ℤ) (js.1 : ℤ)).1))

/-- Python's `min` of a non-empty list. -/
def list_min (l : List ℚ) : ℚ := l.foldl min (l.headD 0)

/-- Python's `max` of a non-empty list. -/
def list_max (l : List ℚ) : ℚ := l.foldl max (l.headD 0)

/-- `[ratios[j] for j in range(len(ratios)) if not crosses_row[j]]`
(lines 1668-1670), for rows of equal length. -/
def filter_not_crossing (ratios : List ℚ) (crosses_row : List Bool) : List ℚ :=
  (ratios.zip crosses_row).filterMap (fun rc => if rc.2 then none else some rc.1)

/-- The arithmetic outcome of one adjacent-chainring overlap block of
`calculate_overlap_analysis`. -/
inductive OverlapOutcome where
  /-- `overlap_start <= overlap_end` and the percentage was computed. -/
  | pct (p : ℚ)
  /-- The "no overlap between usable gears" branch (line 1711). -/
  | noOverlap
  /-- The division `(overlap_end - overlap_start) / (max_ratio1 - min_ratio1)`
  at line 1700 was reached with a zero divisor: the source raises
  `ZeroDivisionError` here (caught by the `handle_errors` decorator as a
  generic error dialog; no analysis is produced). -/
  | divByZero

/-- One iteration of the adjacent-pair loop of `calculate_overlap_analysis`
(lines 1658-1711): filter each row by its crossing flags when available,
fall back to the unfiltered rows when a filtered side is empty, then
compare the two ratio ranges. -/
def overlap_pair_outcome (ratios1 ratios2 : List ℚ)
    (crosses : Option (List Bool × List Bool)) : OverlapOutcome :=
  let ranges :=
    match crosses with
    | some (c1, c2) =>
        let filtered_ratios1 := filter_not_crossing ratios1 c1
        let filtered_ratios2 := filter_not_crossing ratios2 c2
        if filtered_ratios1 ≠ [] ∧ filtered_ratios2 ≠ [] then
          (list_min filtered_ratios1, list_max filtered_ratios1,
           list_min filtered_ratios2, list_max filtered_ratios2)
        else
          (list_min ratios1, list_max ratios1, list_min ratios2, list_max ratios2)
    | none => (list_min ratios1, list_max ratios1, list_min ratios2, list_max ratios2)
  match ranges with
  | (min_ratio1, max_ratio1, min_ratio2, max_ratio2) =>
      let overlap_start := max min_ratio1 min_ratio2
      let overlap_end := min max_ratio1 max_ratio2
      if overlap_start ≤ overlap_end then
        if max_ratio1 - min_ratio1 = 0 then OverlapOutcome.divByZero
        else OverlapOutcome.pct ((overlap_end - overlap_start) / (max_ratio1 - min_ratio1) * 100)
      else OverlapOutcome.noOverlap

/-- The adjacent-pair outcomes of `calculate_overlap_analysis`
(lines 1652-1713); with at most one chainring the loop body never runs
(the source returns an explanatory string instead). -/
def calculate_overlap_outcomes (all_ratios : List (List ℚ))
    (crosses : Option (List (List Bool))) : List OverlapOutcome :=
  if all_ratios.length ≤ 1 then []
  else
    (List.range (all_ratios.length - 1)).map (fun i =>
      overlap_pair_outcome (all_ratios.getD i []) (all_ratios.getD (i + 1) [])
        (crosses.map (fun cs => (cs.getD i [], cs.getD (i + 1) []))))

/-- A degenerate but validated custom configuration: two equal chainrings
and a single sprocket. -/
def degenerate_cfg : DrivetrainConfig := ⟨[50, 50], [14], 2105 / 1000⟩
/-- C6: a single-chainring configuration never reports a crossing. -/
theorem single_chainring_never_crossing (crankset cassette : List ℤ)
    (h : crankset.length ≤ 1) (chainring_idx sprocket_idx : ℤ) :
    is_chain_crossing crankset cassette chainring_idx sprocket_idx = (false, none) := by
  have h' : (crankset.length : ℤ) ≤ 1 := by exact_mod_cast h
  simp only [is_chain_crossing, if_pos h']

/-- Witness for `single_chainring_never_crossing` at a concrete input. -/
theorem single_chainring_never_crossing_witness :
    ([42] : List ℤ).length ≤ 1 ∧
      is_chain_crossing [42] [14, 16, 18, 20] 0 3 = (false, none) :=
  ⟨by decide, single_chainring_never_crossing [42] [14, 16, 18, 20] (by decide) 0 3⟩

/-- C10: the chain-crossing classifier reads the two teeth lists only
through their lengths: two configurations of equal sizes classify every
index pair identically, whatever the tooth values are. -/
theorem crossing_depends_only_on_sizes (crankset₁ cassette₁ crankset₂ cassette₂ : List ℤ)
    (hc : crankset₁.length = crankset₂.length) (hs : cassette₁.length = cassette₂.length)
    (chainring_idx sprocket_idx : ℤ) :
    is_chain_crossing crankset₁ cassette₁ chainring_idx sprocket_idx =
      is_chain_crossing crankset₂ cassette₂ chainring_idx sprocket_idx := by
  simp only [is_chain_crossing, hc, hs]

/-- Witness for `crossing_depends_only_on_sizes` at concrete inputs with
different tooth values. -/
theorem crossing_depends_only_on_sizes_witness :
    ([50, 34] : List ℤ).length = ([48, 36] : List ℤ).length ∧
      ([14, 16, 18] : List ℤ).length = ([11, 23, 46] : List ℤ).length ∧
      is_chain_crossing [50, 34] [14, 16, 18] 1 0 =
        is_chain_crossing [48, 36] [11, 23, 46] 1 0 :=
  ⟨rfl, rfl, crossing_depends_only_on_sizes [50, 34] [14, 16, 18] [48, 36] [11, 23, 46]
    rfl rfl 1 0⟩

/-- C2: double-chainring rule.  With exactly 2 chainrings and letting
`extremeCount = max(2, round(numSprockets * 0.35))`, a pair is classified
as crossing exactly when the chainring index is 0 and the sprocket index
is `≥ numSprockets - extremeCount`, or the chainring index is 1 and the
sprocket index is `< extremeCount`; in particular with 10 sprockets,
chainring 0 crosses exactly at sprocket indices 6-9 and chainring 1
exactly at indices 0-3. -/
theorem crossing_double_rule (crankset cassette : List ℤ)
    (h2 : crankset.length = 2) (chainring_idx sprocket_idx : ℤ) :
    ((is_chain_crossing crankset cassette chainring_idx sprocket_idx).1 = true ↔
      (chainring_idx = 0 ∧
        sprocket_idx ≥ (cassette.length : ℤ) - max 2 (pyRoundMul (cassette.length : ℤ) 35 100)) ∨
      (chainring_idx = 1 ∧
        sprocket_idx < max 2 (pyRoundMul (cassette.length : ℤ) 35 100))) ∧
    (cassette.length = 10 → 0 ≤ sprocket_idx → sprocket_idx < 10 →
      (((is_chain_crossing crankset cassette 0 sprocket_idx).1 = true ↔
        (sprocket_idx = 6 ∨ sprocket_idx = 7 ∨ sprocket_idx = 8 ∨ sprocket_idx = 9)) ∧
       ((is_chain_crossing crankset cassette 1 sprocket_idx).1 = true ↔
        (sprocket_idx = 0 ∨ sprocket_idx = 1 ∨ sprocket_idx = 2 ∨ sprocket_idx = 3)))) := by
  have hgen : ∀ i j : ℤ, ((is_chain_crossing crankset cassette i j).1 = true ↔
      (i = 0 ∧ j ≥ (cassette.length : ℤ) - max 2 (pyRoundMul (cassette.length : ℤ) 35 100)) ∨
      (i = 1 ∧ j < max 2 (pyRoundMul (cassette.length : ℤ) 35 100))) := by
    intro i j
    have hc : (crankset.length : ℤ) = 2 := by rw [h2]; rfl
    simp only [is_chain_crossing, hc]
    norm_num
    split_ifs with hA hB <;> simp <;> omega
  refine ⟨hgen chainring_idx sprocket_idx, fun h10 hj0 hj10 => ?_⟩
  have hlen : (cassette.length : ℤ) = 10 := by rw [h10]; rfl
  have hext : max (2 : ℤ) (pyRoundMul 10 35 100) = 4 := by decide
  constructor
  · rw [hgen 0 sprocket_idx, hlen, hext]
    omega
  · rw [hgen 1 sprocket_idx, hlen, hext]
    omega

/-- C3: triple-chainring rule.  With exactly 3 chainrings, the largest
chainring (idx 0) crosses exactly when the sprocket index is
`≥ numSprockets - max(2, round(numSprockets*0.4))`, the smallest (idx 2)
exactly when it is `< max(2, round(numSprockets*0.4))`, and the middle
(idx 1) exactly when it is `≥ numSprockets - max(1, round(numSprockets*0.15))`
or `< max(1, round(numSprockets*0.15))`; in particular with 7 sprockets,
chainring 0 crosses at indices 4, 5, 6 and the middle chainring at
indices 0 and 6. -/
theorem crossing_triple_rule (crankset cassette : List ℤ)
    (h3 : crankset.length = 3) (chainring_idx sprocket_idx : ℤ) :
    ((is_chain_crossing crankset cassette chainring_idx sprocket_idx).1 = true ↔
      (chainring_idx = 0 ∧
        sprocket_idx ≥ (cassette.length : ℤ) - max 2 (pyRoundMul (cassette.length : ℤ) 4 10)) ∨
      (chainring_idx = 2 ∧
        sprocket_idx < max 2 (pyRoundMul (cassette.length : ℤ) 4 10)) ∨
      (chainring_idx = 1 ∧
        (sprocket_idx ≥ (cassette.length : ℤ) - max 1 (pyRoundMul (cassette.length : ℤ) 15 100) ∨
         sprocket_idx < max 1 (pyRoundMul (cassette.length : ℤ) 15 100)))) ∧
    (cassette.length = 7 → 0 ≤ sprocket_idx → sprocket_idx < 7 →
      (((is_chain_crossing crankset cassette 0 sprocket_idx).1 = true ↔
        (sprocket_idx = 4 ∨ sprocket_idx = 5 ∨ sprocket_idx = 6)) ∧
       ((is_chain_crossing crankset cassette 1 sprocket_idx).1 = true ↔
        (sprocket_idx = 0 ∨ sprocket_idx = 6)))) := by
  have hgen : ∀ i j : ℤ, ((is_chain_crossing crankset cassette i j).1 = true ↔
      (i = 0 ∧ j ≥ (cassette.length : ℤ) - max 2 (pyRoundMul (cassette.length : ℤ) 4 10)) ∨
      (i = 2 ∧ j < max 2 (pyRoundMul (cassette.length : ℤ) 4 10)) ∨
      (i = 1 ∧ (j ≥ (cassette.length : ℤ) - max 1 (pyRoundMul (cassette.length : ℤ) 15 100) ∨
        j < max 1 (pyRoundMul (cassette.length : ℤ) 15 100)))) := by
    intro i j
    have hc : (crankset.length : ℤ) = 3 := by rw [h3]; rfl
    simp only [is_chain_crossing, hc]
    norm_num
    split_ifs with hA hB hC <;> simp <;> omega
  refine ⟨hgen chainring_idx sprocket_idx, fun h7 hj0 hj7 => ?_⟩
  have hlen : (cassette.length : ℤ) = 7 := by rw [h7]; rfl
  have hextL : max (2 : ℤ) (pyRoundMul 7 4 10) = 3 := by decide
  have hextM : max (1 : ℤ) (pyRoundMul 7 15 100) = 1 := by decide
  constructor
  · rw [hgen 0 sprocket_idx, hlen, hextL, hextM]
    omega
  · rw [hgen 1 sprocket_idx, hlen, hextL, hextM]
    omega

/-- Witness for `crossing_double_rule`: a 2x10 configuration, evaluated at
chainring 0 and sprocket index 6 (a crossing). -/
theorem crossing_double_rule_witness :
    ([50, 34] : List ℤ).length = 2 ∧
      (is_chain_crossing [50, 34] [11, 13, 15, 17, 19, 21, 23, 25, 27, 29] 0 6).1 = true :=
  ⟨rfl,
    ((crossing_double_rule [50, 34] [11, 13, 15, 17, 19, 21, 23, 25, 27, 29] rfl 0 6).2
      rfl (by decide) (by decide)).1.mpr (Or.inl rfl)⟩

/-- Witness for `crossing_triple_rule`: the MTB preset seen as a 3x7
configuration, evaluated at the middle chainring and sprocket index 6. -/
theorem crossing_triple_rule_witness :
    ([42, 34, 24] : List ℤ).length = 3 ∧
      (is_chain_crossing [42, 34, 24] [14, 16, 18, 20, 22, 24, 34] 1 6).1 = true :=
  ⟨rfl,
    ((crossing_triple_rule [42, 34, 24] [14, 16, 18, 20, 22, 24, 34] rfl 1 6).2
      rfl (by decide) (by decide)).2.mpr (Or.inr rfl)⟩

/-- C7: `calculate_gear_ratio` returns exactly `chainring / sprocket` when
the sprocket tooth count is nonzero, and fails (with the defensive
`ValueError`, surfaced as the spec's `InvalidConfiguration` condition)
exactly when it is zero. -/
theorem gear_ratio_exact_or_error (chainring sprocket : ℤ) :
    (sprocket ≠ 0 →
      calculate_gear_ratio chainring sprocket =
        Except.ok ((chainring : ℚ) / (sprocket : ℚ))) ∧
    ((∃ e, calculate_gear_ratio chainring sprocket = Except.error e) ↔ sprocket = 0) := by
  refine ⟨fun h => ?_, ?_, fun h => ?_⟩
  · simp [calculate_gear_ratio, gear_ratio_val, h]
  · rintro ⟨e, he⟩
    by_contra h0
    simp [calculate_gear_ratio, h0] at he
  · exact ⟨"Sprocket cannot have 0 teeth", by simp [calculate_gear_ratio, h]⟩

/-- Witness for `gear_ratio_exact_or_error`: the road-preset top gear
50/14, and a zero-tooth sprocket. -/
theorem gear_ratio_exact_or_error_witness :
    calculate_gear_ratio 50 14 = Except.ok ((50 : ℚ) / (14 : ℚ)) ∧
      ∃ e, calculate_gear_ratio 50 0 = Except.error e :=
  ⟨(gear_ratio_exact_or_error 50 14).1 (by decide),
    (gear_ratio_exact_or_error 50 0).2.mpr rfl⟩

theorem updateBest_none (x : GearPair) (d : ℚ) : updateBest x d none = some (x, d) := rfl

theorem updateBest_some (x : GearPair) (d : ℚ) (b : GearPair) (m : ℚ) :
    updateBest x d (some (b, m)) = if d < m then some (x, d) else some (b, m) := rfl

theorem bestGearLoop_some_ne_none (keep : GearPair → Bool) (score : GearPair → ℚ)
    (l : List GearPair) (p : GearPair × ℚ) :
    bestGearLoop keep score l (some p) ≠ none := by
  induction l generalizing p with
  | nil => exact Option.some_ne_none _
  | cons x xs ih =>
      simp only [bestGearLoop]
      cases hk : keep x with
      | false => simpa [hk] using ih p
      | true =>
          obtain ⟨b, m⟩ := p
          simp only [hk, if_true, updateBest_some]
          by_cases hlt : score x < m
          · simpa [hlt] using ih (x, score x)
          · simpa [hlt] using ih (b, m)

theorem bestGearLoop_none_iff (keep : GearPair → Bool) (score : GearPair → ℚ)
    (l : List GearPair) :
    bestGearLoop keep score l none = none ↔ ∀ x ∈ l, keep x = false := by
  induction l with
  | nil => simp [bestGearLoop]
  | cons x xs ih =>
      simp only [bestGearLoop]
      cases hk : keep x with
      | true =>
          simp only [hk, if_true, updateBest_none]
          constructor
          · intro h; exact absurd h (bestGearLoop_some_ne_none keep score xs (x, score x))
          · intro h; exact absurd (h x (List.mem_cons_self x xs)) (by simp [hk])
      | false =>
          simp only [hk, Bool.false_eq_true, if_false]
          rw [ih]
          constructor
          · intro h y hy
            rcases List.mem_cons.mp hy with rfl | hy'
            · exact hk
            · exact h y hy'
          · intro h y hy
            exact h y (List.mem_cons_of_mem x hy)

theorem bestGearLoop_go_spec (keep : GearPair → Bool) (score : GearPair → ℚ)
    (l : List GearPair) (p : GearPair × ℚ) (hp : p.2 = score p.1)
    {b : GearPair} {d : ℚ}
    (h : bestGearLoop keep score l (some p) = some (b, d)) :
    d = score b ∧
      (((b, d) = p ∧ ∀ y ∈ l, keep y = true → p.2 ≤ score y) ∨
       (keep b = true ∧ d < p.2 ∧
         ∃ l1 l2, l = l1 ++ b :: l2 ∧
           (∀ y ∈ l1, keep y = true → d < score y) ∧
           (∀ y ∈ l2, keep y = true → d ≤ score y))) := by
  induction l generalizing p with
  | nil =>
      simp only [bestGearLoop, Option.some_inj] at h
      rw [h] at hp ⊢
      simp only at hp
      exact ⟨hp, Or.inl ⟨rfl, by simp⟩⟩
  | cons x xs ih =>
      simp only [bestGearLoop] at h
      cases hk : keep x with
      | true =>
          obtain ⟨b0, m0⟩ := p
          rw [hk] at h
          simp only [if_true, updateBest_some] at h
          simp only at hp
          by_cases hlt : score x < m0
          · rw [if_pos hlt] at h
            obtain ⟨hd, hcase⟩ := ih (x, score x) rfl h
            refine ⟨hd, Or.inr ?_⟩
            rcases hcase with ⟨heq, hbound⟩ | ⟨hkb, hdlt, l1, l2, hsplit, h1, h2⟩
            · have hb : b = x := (Prod.ext_iff.mp heq).1
              have hd' : d = score x := (Prod.ext_iff.mp heq).2
              subst hb
              refine ⟨hk, by linarith, [], xs, by simp, by simp, ?_⟩
              intro y hy hky
              have := hbound y hy hky
              simp only at this
              linarith
            · refine ⟨hkb, by simp only at hdlt; linarith, x :: l1, l2, by simp [hsplit], ?_, h2⟩
              intro y hy hky
              rcases List.mem_cons.mp hy with rfl | hy'
              · simp only at hdlt; linarith
              · exact h1 y hy' hky
          · rw [if_neg hlt] at h
            obtain ⟨hd, hcase⟩ := ih (b0, m0) hp h
            refine ⟨hd, ?_⟩
            rcases hcase with ⟨heq, hbound⟩ | ⟨hkb, hdlt, l1, l2, hsplit, h1, h2⟩
            · refine Or.inl ⟨heq, ?_⟩
              intro y hy hky
              rcases List.mem_cons.mp hy with rfl | hy'
              · simp only; linarith
              · exact hbound y hy' hky
            · refine Or.inr ⟨hkb, hdlt, x :: l1, l2, by simp [hsplit], ?_, h2⟩
              intro y hy hky
              rcases List.mem_cons.mp hy with rfl | hy'
              · simp only at hdlt; linarith
              · exact h1 y hy' hky
      | false =>
          rw [hk] at h
          simp only [Bool.false_eq_true, if_false] at h
          obtain ⟨hd, hcase⟩ := ih p hp h
          refine ⟨hd, ?_⟩
          rcases hcase with ⟨heq, hbound⟩ | ⟨hkb, hdlt, l1, l2, hsplit, h1, h2⟩
          · refine Or.inl ⟨heq, ?_⟩
            intro y hy hky
            rcases List.mem_cons.mp hy with rfl | hy'
            · exact absurd hky (by simp [hk])
            · exact hbound y hy' hky
          · refine Or.inr ⟨hkb, hdlt, x :: l1, l2, by simp [hsplit], ?_, h2⟩
            intro y hy hky
            rcases List.mem_cons.mp hy with rfl | hy'
            · exact absurd hky (by simp [hk])
            · exact h1 y hy' hky

theorem bestGearLoop_spec (keep : GearPair → Bool) (score : GearPair → ℚ)
    (l : List GearPair) {b : GearPair} {d : ℚ}
    (h : bestGearLoop keep score l none = some (b, d)) :
    keep b = true ∧ d = score b ∧
      ∃ l1 l2, l = l1 ++ b :: l2 ∧
        (∀ y ∈ l1, keep y = true → d < score y) ∧
        (∀ y ∈ l2, keep y = true → d ≤ score y) := by
  induction l with
  | nil => simp [bestGearLoop] at h
  | cons x xs ih =>
      simp only [bestGearLoop] at h
      cases hk : keep x with
      | true =>
          rw [hk] at h
          rw [if_pos rfl, updateBest_none] at h
          obtain ⟨hd, hcase⟩ := bestGearLoop_go_spec keep score xs (x, score x) rfl h
          rcases hcase with ⟨heq, hbound⟩ | ⟨hkb, hdlt, l1, l2, hsplit, h1, h2⟩
          · have hb : b = x := (Prod.ext_iff.mp heq).1
            subst hb
            refine ⟨hk, hd, [], xs, by simp, by simp, ?_⟩
            intro y hy hky
            have := hbound y hy hky
            simp only at this
            linarith [hd]
          · refine ⟨hkb, hd, x :: l1, l2, by simp [hsplit], ?_, h2⟩
            intro y hy hky
            rcases List.mem_cons.mp hy with rfl | hy'
            · simp only at hdlt; linarith
            · exact h1 y hy' hky
      | false =>
          rw [hk] at h
          simp only [Bool.false_eq_true, if_false] at h
          obtain ⟨hkb, hd, l1, l2, hsplit, h1, h2⟩ := ih h
          refine ⟨hkb, hd, x :: l1, l2, by simp [hsplit], ?_, h2⟩
          intro y hy hky
          rcases List.mem_cons.mp hy with rfl | hy'
          · exact absurd hky (by simp [hk])
          · exact h1 y hy' hky

theorem fst_ge_of_mem_enumFrom {α : Type*} {l : List α} {n : ℕ} {p : ℕ × α}
    (h : p ∈ l.enumFrom n) : n ≤ p.1 := by
  induction l generalizing n with
  | nil => simp [List.enumFrom] at h
  | cons x xs ih =>
      rw [List.enumFrom_cons] at h
      rcases List.mem_cons.mp h with rfl | h'
      · simp
      · exact Nat.le_of_succ_le (ih h')

theorem pairwise_fst_lt_enumFrom {α : Type*} (n : ℕ) (l : List α) :
    (l.enumFrom n).Pairwise (fun a b => a.1 < b.1) := by
  induction l generalizing n with
  | nil => simp [List.enumFrom]
  | cons x xs ih =>
      rw [List.enumFrom_cons]
      refine List.Pairwise.cons ?_ (ih (n + 1))
      intro y hy
      have := fst_ge_of_mem_enumFrom hy
      omega

theorem pairwise_fst_lt_enum {α : Type*} (l : List α) :
    l.enum.Pairwise (fun a b => a.1 < b.1) :=
  pairwise_fst_lt_enumFrom 0 l

theorem mem_gearPairs {cfg : DrivetrainConfig} {p : GearPair} :
    p ∈ gearPairs cfg ↔
      cfg.crankset[p.1.1]? = some p.1.2 ∧ cfg.cassette[p.2.1]? = some p.2.2 := by
  obtain ⟨⟨i, c⟩, j, s⟩ := p
  simp only [gearPairs, List.mem_flatMap, List.mem_map]
  constructor
  · rintro ⟨ic, hic, js, hjs, heq⟩
    have h1 : ic = (i, c) := (Prod.ext_iff.mp heq).1
    have h2 : js = (j, s) := (Prod.ext_iff.mp heq).2
    subst h1; subst h2
    exact ⟨List.mk_mem_enum_iff_getElem?.mp hic, List.mk_mem_enum_iff_getElem?.mp hjs⟩
  · rintro ⟨h1, h2⟩
    exact ⟨(i, c), List.mk_mem_enum_iff_getElem?.mpr h1,
           (j, s), List.mk_mem_enum_iff_getElem?.mpr h2, rfl⟩

theorem gearPairs_pairwise (cfg : DrivetrainConfig) :
    (gearPairs cfg).Pairwise lexBefore := by
  unfold gearPairs
  rw [List.flatMap_def, List.pairwise_flatten]
  constructor
  · intro l' hl'
    rcases List.mem_map.mp hl' with ⟨ic, _, rfl⟩
    rw [List.pairwise_map]
    exact (pairwise_fst_lt_enum _).imp (fun hab => Or.inr ⟨rfl, hab⟩)
  · rw [List.pairwise_map]
    refine (pairwise_fst_lt_enum _).imp ?_
    intro ic ic' hlt x hx y hy
    rcases List.mem_map.mp hx with ⟨js, _, rfl⟩
    rcases List.mem_map.mp hy with ⟨js', _, rfl⟩
    exact Or.inl hlt

theorem mem_left_of_lexBefore {l1 l2 : List GearPair} {w x : GearPair}
    (hpw : (l1 ++ w :: l2).Pairwise lexBefore)
    (hx : x ∈ l1 ++ w :: l2) (hlex : lexBefore x w) : x ∈ l1 := by
  rcases List.mem_append.mp hx with h1 | h2
  · exact h1
  · rcases List.mem_cons.mp h2 with rfl | h3
    · exfalso; unfold lexBefore at hlex; omega
    · exfalso
      have hw : lexBefore w x :=
        (List.pairwise_cons.mp (List.pairwise_append.mp hpw).2.1).1 x h3
      unfold lexBefore at hlex hw
      omega

theorem winner_min_first (cfg : DrivetrainConfig) (keep : GearPair → Bool)
    (score : GearPair → ℚ) {w : GearPair} {d : ℚ}
    (h : bestGearLoop keep score (gearPairs cfg) none = some (w, d))
    {x : GearPair} (hx : x ∈ gearPairs cfg) (hkx : keep x = true) :
    score w ≤ score x ∧ (lexBefore x w → score w < score x) := by
  obtain ⟨hkw, hd, l1, l2, hsplit, h1, h2⟩ := bestGearLoop_spec keep score _ h
  rw [hd] at h1 h2
  have hpw := gearPairs_pairwise cfg
  rw [hsplit] at hpw hx
  constructor
  · rcases List.mem_append.mp hx with hx1 | hx2
    · exact le_of_lt (h1 x hx1 hkx)
    · rcases List.mem_cons.mp hx2 with rfl | hx3
      · exact le_refl _
      · exact h2 x hx3 hkx
  · intro hlex
    exact h1 x (mem_left_of_lexBefore hpw hx hlex) hkx

/-- C1: on a validated configuration in which at least one pair is
non-crossing, the recommendation search returns a pair the classifier
accepts, with the crossing flag `false`; and whenever a returned
recommendation carries a `true` crossing flag, every pair of that
configuration is a crossing (the fallback pass was needed). -/
theorem recommend_avoids_crossing (cfg : DrivetrainConfig) (q : RecommendationQuery)
    (hv : validate_gear_configuration cfg = true)
    (i j : ℕ) (c s : ℤ)
    (hc : cfg.crankset[i]? = some c) (hs : cfg.cassette[j]? = some s)
    (hnc : (is_chain_crossing cfg.crankset cfg.cassette (i : ℤ) (j : ℤ)).1 = false) :
    (∃ r, calculate_recommended_gear cfg q = some r ∧
        (is_chain_crossing cfg.crankset cfg.cassette (r.chainring_idx : ℤ)
          (r.sprocket_idx : ℤ)).1 = false ∧
        r.is_crossing = false) ∧
    (∀ (cfg' : DrivetrainConfig) (q' : RecommendationQuery) r',
        calculate_recommended_gear cfg' q' = some r' → r'.is_crossing = true →
        ∀ (i' j' : ℕ) (c' s' : ℤ), cfg'.crankset[i']? = some c' →
          cfg'.cassette[j']? = some s' →
          (is_chain_crossing cfg'.crankset cfg'.cassette (i' : ℤ) (j' : ℤ)).1 = true) := by
  constructor
  · have hmem : ((i, c), (j, s)) ∈ gearPairs cfg := mem_gearPairs.mpr ⟨hc, hs⟩
    have hne : first_pass cfg q ≠ none := by
      unfold first_pass
      intro hnone
      have := (bestGearLoop_none_iff _ _ _).mp hnone ((i, c), (j, s)) hmem
      simp [hnc] at this
    cases hfp : first_pass cfg q with
    | none => exact absurd hfp hne
    | some pd =>
        obtain ⟨⟨ic, jc⟩, d⟩ := pd
        have hspec := bestGearLoop_spec _ _ _ (by unfold first_pass at hfp; exact hfp)
        obtain ⟨hkeep, -, -⟩ := hspec
        refine ⟨{ chainring := ic.2, sprocket := jc.2, chainring_idx := ic.1,
                  sprocket_idx := jc.1, gear_ratio := gear_ratio_val ic.2 jc.2,
                  speed := calculate_speed cfg (gear_ratio_val ic.2 jc.2) q.cadence,
                  development := gear_ratio_val ic.2 jc.2 * cfg.wheel_circumference,
                  is_crossing := false, crossing_reason := none,
                  advice := recommendation_advice q.slope }, ?_, ?_, rfl⟩
        · simp [calculate_recommended_gear, hfp]
        · simpa using hkeep
  · intro cfg' q' r' hr' hcross i' j' c' s' hc' hs'
    cases hfp : first_pass cfg' q' with
    | some pd =>
        obtain ⟨⟨ic, jc⟩, d⟩ := pd
        simp only [calculate_recommended_gear, hfp, Option.some_inj] at hr'
        rw [← hr'] at hcross
        simp at hcross
    | none =>
        unfold first_pass at hfp
        have hall := (bestGearLoop_none_iff _ _ _).mp hfp
        have := hall ((i', c'), (j', s')) (mem_gearPairs.mpr ⟨hc', hs'⟩)
        simpa using this

/-- Witness for `recommend_avoids_crossing`: a validated 2x5 road-style
configuration whose pair (0,0) is non-crossing. -/
theorem recommend_avoids_crossing_witness :
    validate_gear_configuration ⟨[50, 34], [11, 12, 13, 14, 15], 2105 / 1000⟩ = true ∧
      (is_chain_crossing [50, 34] [11, 12, 13, 14, 15] 0 0).1 = false ∧
      ∃ r, calculate_recommended_gear ⟨[50, 34], [11, 12, 13, 14, 15], 2105 / 1000⟩
          ⟨25, 0, 90⟩ = some r ∧
        (is_chain_crossing [50, 34] [11, 12, 13, 14, 15] (r.chainring_idx : ℤ)
          (r.sprocket_idx : ℤ)).1 = false ∧
        r.is_crossing = false :=
  ⟨by decide, by decide,
    (recommend_avoids_crossing ⟨[50, 34], [11, 12, 13, 14, 15], 2105 / 1000⟩ ⟨25, 0, 90⟩
      (by decide) 0 0 50 11 rfl rfl (by decide)).1⟩

/-- C5: the recommendation search resolves ties to the first pair in
iteration order.  If the engine returned `r`, then every candidate pair
that survives the pass which produced `r` (every pair when the fallback
was needed, i.e. `r.is_crossing = true`; the non-crossing pairs
otherwise) has a difference to the target at least that of `r`, and a
surviving candidate strictly earlier in loop order (smaller chainring
index, or equal chainring index and smaller sprocket index) has a
strictly larger difference: a later pair with an equal difference never
replaces the first minimal one. -/
theorem recommend_tie_break_first (cfg : DrivetrainConfig) (q : RecommendationQuery)
    (r : RecommendationResult) (hr : calculate_recommended_gear cfg q = some r)
    (i j : ℕ) (c s : ℤ)
    (hc : cfg.crankset[i]? = some c) (hs : cfg.cassette[j]? = some s)
    (hsur : r.is_crossing = true ∨
      (is_chain_crossing cfg.crankset cfg.cassette (i : ℤ) (j : ℤ)).1 = false) :
    pairDiff cfg q r.chainring r.sprocket ≤ pairDiff cfg q c s ∧
      ((i < r.chainring_idx ∨ (i = r.chainring_idx ∧ j < r.sprocket_idx)) →
        pairDiff cfg q r.chainring r.sprocket < pairDiff cfg q c s) := by
  have hmem : ((i, c), (j, s)) ∈ gearPairs cfg := mem_gearPairs.mpr ⟨hc, hs⟩
  cases hfp : first_pass cfg q with
  | some pd =>
      obtain ⟨⟨ic, jc⟩, d⟩ := pd
      simp only [calculate_recommended_gear, hfp, Option.some_inj] at hr
      subst hr
      have hncand : (is_chain_crossing cfg.crankset cfg.cassette (i : ℤ) (j : ℤ)).1 = false := by
        rcases hsur with hcr | h
        · simp at hcr
        · exact h
      unfold first_pass at hfp
      have hmin := winner_min_first cfg _ _ hfp hmem (by simp [hncand])
      exact ⟨hmin.1, fun hlex => hmin.2 hlex⟩
  | none =>
      cases hsp : second_pass cfg q with
      | none => simp [calculate_recommended_gear, hfp, hsp] at hr
      | some pd =>
          obtain ⟨⟨ic, jc⟩, d⟩ := pd
          simp only [calculate_recommended_gear, hfp, hsp, Option.some_inj] at hr
          subst hr
          unfold second_pass at hsp
          have hmin := winner_min_first cfg _ _ hsp hmem rfl
          exact ⟨hmin.1, fun hlex => hmin.2 hlex⟩

/-- Witness for `recommend_tie_break_first`: a 2x1 configuration in which
both pairs cross (so the fallback pass decides) and, with cadence 0, both
pairs tie at difference 0; the engine keeps the first pair (chainring
index 0) and the later equal candidate (chainring index 1) does not
replace it. -/
theorem recommend_tie_break_first_witness :
    calculate_recommended_gear ⟨[50, 34], [14], 2105 / 1000⟩ ⟨0, 0, 0⟩ =
      some { chainring := 50, sprocket := 14, chainring_idx := 0, sprocket_idx := 0,
             gear_ratio := gear_ratio_val 50 14,
             speed := calculate_speed ⟨[50, 34], [14], 2105 / 1000⟩ (gear_ratio_val 50 14) 0,
             development := gear_ratio_val 50 14 * (2105 / 1000),
             is_crossing := true, crossing_reason := some large_large_msg,
             advice := recommendation_advice 0 } ∧
    pairDiff ⟨[50, 34], [14], 2105 / 1000⟩ ⟨0, 0, 0⟩ 50 14 ≤
      pairDiff ⟨[50, 34], [14], 2105 / 1000⟩ ⟨0, 0, 0⟩ 34 14 := by
  have hscore : ∀ p : GearPair,
      pairScore ⟨[50, 34], [14], 2105 / 1000⟩ ⟨0, 0, 0⟩ p = 0 := by
    intro p
    simp [pairScore, pairDiff, adjusted_speed, calculate_speed]
  have hfirst : first_pass ⟨[50, 34], [14], 2105 / 1000⟩ ⟨0, 0, 0⟩ = none := rfl
  have hloop : second_pass ⟨[50, 34], [14], 2105 / 1000⟩ ⟨0, 0, 0⟩ =
      some (((0, 50), (0, 14)),
        pairScore ⟨[50, 34], [14], 2105 / 1000⟩ ⟨0, 0, 0⟩ ((0, 50), (0, 14))) := by
    have hstep : second_pass ⟨[50, 34], [14], 2105 / 1000⟩ ⟨0, 0, 0⟩ =
        updateBest ((1, 34), (0, 14))
          (pairScore ⟨[50, 34], [14], 2105 / 1000⟩ ⟨0, 0, 0⟩ ((1, 34), (0, 14)))
          (some (((0, 50), (0, 14)),
            pairScore ⟨[50, 34], [14], 2105 / 1000⟩ ⟨0, 0, 0⟩ ((0, 50), (0, 14)))) := rfl
    rw [hstep, updateBest_some, if_neg (by rw [hscore, hscore]; exact lt_irrefl 0)]
  have hcr : is_chain_crossing [50, 34] [14] ((0 : ℕ) : ℤ) ((0 : ℕ) : ℤ) =
      (true, some large_large_msg) := by decide
  have hr0 : calculate_recommended_gear ⟨[50, 34], [14], 2105 / 1000⟩ ⟨0, 0, 0⟩ =
      some { chainring := 50, sprocket := 14, chainring_idx := 0, sprocket_idx := 0,
             gear_ratio := gear_ratio_val 50 14,
             speed := calculate_speed ⟨[50, 34], [14], 2105 / 1000⟩ (gear_ratio_val 50 14) 0,
             development := gear_ratio_val 50 14 * (2105 / 1000),
             is_crossing := true, crossing_reason := some large_large_msg,
             advice := recommendation_advice 0 } := by
    simp only [calculate_recommended_gear, hfirst, hloop, hcr]
  exact ⟨hr0,
    (recommend_tie_break_first ⟨[50, 34], [14], 2105 / 1000⟩ ⟨0, 0, 0⟩ _ hr0
      1 0 34 14 rfl rfl (Or.inl rfl)).1⟩

/-- C8: the advice of a recommendation is a pure function of the slope,
with the buckets checked in order `> 8`, `> 0`, `< -5`, else flat; in
particular a slope of 0, and any slope in `[-5, 0]`, gets the flat-terrain
advice. -/
theorem advice_slope_buckets (slope : ℚ) :
    (∀ (cfg : DrivetrainConfig) (q : RecommendationQuery) (r : RecommendationResult),
        q.slope = slope → calculate_recommended_gear cfg q = some r →
        r.advice = recommendation_advice slope) ∧
    (slope > 8 → recommendation_advice slope = steep_climb_advice) ∧
    (¬slope > 8 → slope > 0 → recommendation_advice slope = mild_climb_advice) ∧
    (¬slope > 8 → ¬slope > 0 → slope < -5 → recommendation_advice slope = descent_advice) ∧
    (¬slope > 8 → ¬slope > 0 → ¬slope < -5 → recommendation_advice slope = flat_advice) ∧
    (-5 ≤ slope → slope ≤ 0 → recommendation_advice slope = flat_advice) := by
  refine ⟨?_, ?_, ?_, ?_, ?_, ?_⟩
  · intro cfg q r hq hr
    subst hq
    cases hfp : first_pass cfg q with
    | some pd =>
        obtain ⟨⟨ic, jc⟩, d⟩ := pd
        simp only [calculate_recommended_gear, hfp, Option.some_inj] at hr
        rw [← hr]
    | none =>
        cases hsp : second_pass cfg q with
        | none => simp [calculate_recommended_gear, hfp, hsp] at hr
        | some pd =>
            obtain ⟨⟨ic, jc⟩, d⟩ := pd
            simp only [calculate_recommended_gear, hfp, hsp, Option.some_inj] at hr
            rw [← hr]
  · intro h; simp [recommendation_advice, h]
  · intro h1 h2; simp [recommendation_advice, h1, h2]
  · intro h1 h2 h3; simp [recommendation_advice, h1, h2, h3]
  · intro h1 h2 h3; simp [recommendation_advice, h1, h2, h3]
  · intro h1 h2
    have h3 : ¬slope > 8 := by linarith
    have h4 : ¬slope > 0 := by linarith
    have h5 : ¬slope < -5 := by linarith
    simp [recommendation_advice, h3, h4, h5]

/-- Witness for `advice_slope_buckets` at one slope per bucket, including
both flat cases 0 and -5. -/
theorem advice_slope_buckets_witness :
    recommendation_advice 10 = steep_climb_advice ∧
    recommendation_advice 5 = mild_climb_advice ∧
    recommendation_advice (-7) = descent_advice ∧
    recommendation_advice 0 = flat_advice ∧
    recommendation_advice (-5) = flat_advice :=
  ⟨(advice_slope_buckets 10).2.1 (by decide),
   (advice_slope_buckets 5).2.2.1 (by decide) (by decide),
   (advice_slope_buckets (-7)).2.2.2.1 (by decide) (by decide) (by decide),
   (advice_slope_buckets 0).2.2.2.2.2 (by decide) (by decide),
   (advice_slope_buckets (-5)).2.2.2.2.2 (by decide) (by decide)⟩

/-- C9: building the teeth lists from a (non-custom) preset, or saving a
manual entry, stores the same multisets of tooth counts, with chainrings
sorted descending and sprockets sorted ascending, and the stored lists do
not depend on the order in which the teeth were supplied. -/
theorem config_roundtrip_sorted (bt bt' : BikeType)
    (hv : bt.value ≠ "custom") (hv' : bt'.value = bt.value)
    (hcp : bt.chainrings.Perm bt'.chainrings) (hsp : bt.sprockets.Perm bt'.sprockets) :
    (select_bike_type bt).1.Perm bt.chainrings ∧
    (select_bike_type bt).2.Perm bt.sprockets ∧
    (select_bike_type bt).1.Sorted (fun a b => a ≥ b) ∧
    (select_bike_type bt).2.Sorted (fun a b => a ≤ b) ∧
    select_bike_type bt = select_bike_type bt' ∧
    (bt.chainrings ≠ [] → bt.sprockets ≠ [] →
      save_custom_gears bt.chainrings bt.sprockets = Except.ok (select_bike_type bt) ∧
      save_custom_gears bt'.chainrings bt'.sprockets =
        save_custom_gears bt.chainrings bt.sprockets) := by
  have hv2 : ¬bt'.value = "custom" := by rw [hv']; exact hv
  have e1 : select_bike_type bt =
      (List.insertionSort (fun a b => a ≥ b) bt.chainrings,
       List.insertionSort (fun a b => a ≤ b) bt.sprockets) := by
    simp [select_bike_type, hv]
  have e2 : select_bike_type bt' =
      (List.insertionSort (fun a b => a ≥ b) bt'.chainrings,
       List.insertionSort (fun a b => a ≤ b) bt'.sprockets) := by
    simp [select_bike_type, hv2]
  have hdesc : List.insertionSort (fun a b => a ≥ b) bt.chainrings =
      List.insertionSort (fun a b => a ≥ b) bt'.chainrings := by
    refine List.eq_of_perm_of_sorted ?_ (List.sorted_insertionSort _ _)
      (List.sorted_insertionSort _ _)
    exact (List.perm_insertionSort _ _).trans (hcp.trans (List.perm_insertionSort _ _).symm)
  have hasc : List.insertionSort (fun a b => a ≤ b) bt.sprockets =
      List.insertionSort (fun a b => a ≤ b) bt'.sprockets := by
    refine List.eq_of_perm_of_sorted ?_ (List.sorted_insertionSort _ _)
      (List.sorted_insertionSort _ _)
    exact (List.perm_insertionSort _ _).trans (hsp.trans (List.perm_insertionSort _ _).symm)
  refine ⟨?_, ?_, ?_, ?_, ?_, ?_⟩
  · rw [e1]; exact List.perm_insertionSort _ _
  · rw [e1]; exact List.perm_insertionSort _ _
  · rw [e1]; exact List.sorted_insertionSort _ _
  · rw [e1]; exact List.sorted_insertionSort _ _
  · rw [e1, e2, hdesc, hasc]
  · intro hne1 hne2
    have hne1' : ¬bt'.chainrings = [] := fun h => hne1 (List.Perm.eq_nil (h ▸ hcp))
    have hne2' : ¬bt'.sprockets = [] := fun h => hne2 (List.Perm.eq_nil (h ▸ hsp))
    constructor
    · simp [save_custom_gears, hne1, hne2, e1]
    · simp [save_custom_gears, hne1, hne2, hne1', hne2', hdesc, hasc]

/-- Witness for `config_roundtrip_sorted`: the MTB preset and the same
preset with both lists reversed. -/
theorem config_roundtrip_sorted_witness :
    select_bike_type ⟨"MTB (Mountain)", "mtb", [24, 34, 42], [14, 16, 18, 20, 22, 24, 34]⟩ =
      select_bike_type ⟨"MTB (Mountain)", "mtb", [42, 34, 24], [34, 24, 22, 20, 18, 16, 14]⟩ ∧
    (select_bike_type
      ⟨"MTB (Mountain)", "mtb", [24, 34, 42], [14, 16, 18, 20, 22, 24, 34]⟩).1.Sorted
        (fun a b => a ≥ b) :=
  ⟨(config_roundtrip_sorted
      ⟨"MTB (Mountain)", "mtb", [24, 34, 42], [14, 16, 18, 20, 22, 24, 34]⟩
      ⟨"MTB (Mountain)", "mtb", [42, 34, 24], [34, 24, 22, 20, 18, 16, 14]⟩
      (by decide) rfl (by decide) (by decide)).2.2.2.2.1,
   (config_roundtrip_sorted
      ⟨"MTB (Mountain)", "mtb", [24, 34, 42], [14, 16, 18, 20, 22, 24, 34]⟩
      ⟨"MTB (Mountain)", "mtb", [42, 34, 24], [34, 24, 22, 20, 18, 16, 14]⟩
      (by decide) rfl (by decide) (by decide)).2.2.1⟩

/-- C4 (behavior of the source, contradicting the spec's required
handling): on the validated configuration with chainrings `[50, 50]` and
the single sprocket `[14]`, every pair is a crossing, so the overlap
analysis falls back to the unfiltered ranges; both ranges are the single
point `50/14`, `overlap_start = overlap_end` holds, and the computation
reaches the division `(overlap_end - overlap_start) / (max_ratio1 -
min_ratio1)` with a zero divisor: the source raises `ZeroDivisionError`
instead of producing the 100% overlap the design requires. -/
theorem overlap_divide_by_zero_on_degenerate :
    validate_gear_configuration degenerate_cfg = true ∧
    calculate_overlap_outcomes (chainring_ratio_rows degenerate_cfg)
      (some (crossing_rows degenerate_cfg)) = [OverlapOutcome.divByZero] := by
  constructor
  · decide
  · have hrows : chainring_ratio_rows degenerate_cfg =
        [[gear_ratio_val 50 14], [gear_ratio_val 50 14]] := rfl
    have hcross : crossing_rows degenerate_cfg = [[true], [true]] := by decide
    rw [hrows, hcross]
    have hstep : calculate_overlap_outcomes [[gear_ratio_val 50 14], [gear_ratio_val 50 14]]
        (some [[true], [true]]) =
        [overlap_pair_outcome [gear_ratio_val 50 14] [gear_ratio_val 50 14]
          (some ([true], [true]))] := rfl
    rw [hstep]
    have hfil : filter_not_crossing [gear_ratio_val 50 14] [true] = [] := rfl
    simp only [overlap_pair_outcome, hfil, list_min, list_max]
    simp [min_self, max_self]
